import Mathlib

/-!
# Verification of the spy-daytrader real-time synchronization layer

Shallow embedding of the frontend synchronization core:
* the Transport Channel (`frontend/src/hooks/useWebSocket.ts`),
* the Alert Ingestor (`AlertsFeed` component),
* the Poll Loops (`useTrades.ts`, `useAccount.ts`),
* the Ranking Blender (backend; modelled from the spec) and the
  leaderboard polling cadence (`useLeaderboard.ts` + `StrategyLeaderboard`).

Timers, sockets and React state are modelled by explicit state passing and
an event-labelled step function; fallible fetches are `Except` values.
-/

namespace SpyDaytrader

/-! ## Transport Channel (`useWebSocket.ts`)

The hook keeps: `connected : Bool`, a `reconnectTimer` handle, a
`reconnectAttempt` counter, and the current WebSocket.  We embed the socket
as a three-valued readiness state and the pending reconnect timer as
`Option Nat` holding the scheduled delay.  `connects` counts calls to
`connect()` (each call opens a fresh socket). -/

inductive SockState
  | connecting
  | sopen
  | closed
  deriving DecidableEq, Repr

structure ChanState where
  sock : SockState
  connected : Bool
  attempt : Nat
  /-- pending reconnect timer, holding the scheduled delay in ms -/
  timer : Option Nat
  disposed : Bool
  /-- number of `connect()` invocations so far -/
  connects : Nat
  deriving DecidableEq, Repr

/-- Source expression `Math.min(3000 * Math.pow(2, reconnectAttempt.current), 60000)`
(useWebSocket.ts line 34). -/
def backoffDelay (attempt : Nat) : Nat :=
  min (3000 * 2 ^ attempt) 60000

/-- Events the hook's handlers react to.  `fire` is the reconnect timer
firing (running `connect`); `dispose` is the `useEffect` cleanup
(`clearTimeout(reconnectTimer.current); wsRef.current?.close()`). -/
inductive ChanEv
  | evOpen
  | evClose
  | fire
  | dispose
  deriving DecidableEq, Repr

/-- Which events the environment can deliver in a given state: a socket can
open only while connecting, a close event fires only for a not-yet-closed
socket, a timer fires only while pending (dispose clears it), and disposal
happens once. -/
def chanEnabled (s : ChanState) : ChanEv → Bool
  | .evOpen => s.sock == .connecting
  | .evClose => s.sock != .closed
  | .fire => s.timer.isSome
  | .dispose => !s.disposed

/-- One handler execution.
* `evOpen`: `ws.onopen` — `setConnected(true); reconnectAttempt.current = 0`.
* `evClose`: `ws.onclose` — `setConnected(false)`, compute the backoff
  delay from the current attempt count, increment the attempt count, and
  schedule the reconnect timer.
* `fire`: the timer runs `connect()` — a fresh connecting socket; the
  timer is no longer pending.
* `dispose`: cleanup — cancel the pending timer.  (The `ws.close()` call of
  the cleanup is modelled by the close event remaining enabled afterwards
  while the socket is not yet closed.) -/
def chanStep (s : ChanState) : ChanEv → ChanState
  | .evOpen => { s with sock := .sopen, connected := true, attempt := 0 }
  | .evClose =>
      { s with sock := .closed, connected := false,
               timer := some (backoffDelay s.attempt),
               attempt := s.attempt + 1 }
  | .fire => { s with timer := none, sock := .connecting,
                      connects := s.connects + 1 }
  | .dispose => { s with disposed := true, timer := none }

/-- State after mount: `useEffect` runs `connect()` eagerly. -/
def initChan : ChanState :=
  { sock := .connecting, connected := false, attempt := 0,
    timer := none, disposed := false, connects := 1 }

def chanRun (s : ChanState) (evs : List ChanEv) : ChanState :=
  evs.foldl chanStep s

/-- A trace is valid when every event is enabled at its point. -/
def chanValid : ChanState → List ChanEv → Bool
  | _, [] => true
  | s, e :: rest => chanEnabled s e && chanValid (chanStep s e) rest

/-! ### Message handling (`ws.onmessage`) -/

inductive MsgType
  | price_update
  | trade_update
  | status_update
  | errmsg
  | pong
  deriving DecidableEq, Repr

/-- Payload keys that the alert ingestor reads from a `trade_update`'s
`data` record (a `Record<string, unknown>` in the source; absent keys and
failed casts read as `undefined`, i.e. `none`). -/
structure TradeData where
  action : Option String := none
  strategy : Option String := none
  option_strategy_type : Option String := none
  contracts : Option ℚ := none
  quantity : Option ℚ := none
  net_premium : Option ℚ := none
  display : Option String := none
  max_loss : Option ℚ := none
  max_profit : Option ℚ := none
  pnl : Option ℚ := none
  pnl_pct : Option ℚ := none
  regime : Option String := none
  current_regime : Option String := none
  confidence : Option ℚ := none
  exit_reason : Option String := none
  commission : Option ℚ := none
  strike : Option ℚ := none
  expiration_date : Option String := none
  option_type : Option String := none
  underlying_entry : Option ℚ := none
  underlying_exit : Option ℚ := none
  entry_delta : Option ℚ := none
  entry_iv : Option ℚ := none
  deriving DecidableEq, Repr

/-- Shape of `WSMessage` (types.ts): a `type` tag and a `data` record. -/
structure WSMessage where
  type : MsgType
  data : TradeData
  deriving DecidableEq, Repr

/-- Body of `ws.onmessage` before the surrounding `try`/`catch`:
`JSON.parse` either throws (modelled as the `Except.error` input) or yields
a message; a `pong` is consumed silently, anything else is delivered via
`setLastMessage`.  Returns the new `lastMessage` and the list of
deliveries made to the subscriber. -/
def onmessageBody (parsed : Except Unit WSMessage) (last : Option WSMessage) :
    Except Unit (Option WSMessage × List WSMessage) := do
  let msg ← parsed
  if msg.type = .pong then
    pure (last, [])
  else
    pure (some msg, [msg])

/-- Handler `ws.onmessage` with its ignoring catch: a parse failure leaves
the state untouched and never propagates. -/
def onmessage (parsed : Except Unit WSMessage) (last : Option WSMessage) :
    Option WSMessage × List WSMessage :=
  match onmessageBody parsed last with
  | .ok r => r
  | .error _ => (last, [])

/-! ## Alert Ingestor (`AlertsFeed`, src/unnamed/part_000)

The component keeps a bounded list of alerts and `processedRef`, the
arrival millisecond of the last processed `trade_update`.  The effect body
runs once per delivered `lastMessage`, reading `Date.now()`. -/

inductive AlertAction
  | OPEN
  | CLOSE
  deriving DecidableEq, Repr

/-- Record `Alert` (AlertsFeed component). -/
structure Alert where
  id : Nat
  action : AlertAction
  strategy : String
  option_strategy_type : String
  contracts : ℚ
  net_premium : ℚ
  display : String
  max_loss : Option ℚ
  max_profit : Option ℚ
  pnl : Option ℚ
  pnl_pct : Option ℚ
  regime : String
  timestamp : Nat
  confidence : Option ℚ
  exit_reason : Option String
  commission : Option ℚ
  strike : Option ℚ
  expiration_date : Option String
  option_type : Option String
  underlying_entry : Option ℚ
  underlying_exit : Option ℚ
  entry_delta : Option ℚ
  entry_iv : Option ℚ
  deriving DecidableEq, Repr

/-- Constant `MAX_ALERTS = 50`. -/
def MAX_ALERTS : Nat := 50

/-- The alert literal built in the effect: each field normalized from the
payload with the source's `??` fallbacks; `id` and `timestamp` are the
arrival instant `now`. -/
def mkAlert (data : TradeData) (now : Nat) : Alert :=
  { id := now
    action := if data.action.map String.toUpper = some "CLOSE" then .CLOSE else .OPEN
    strategy := data.strategy.getD "Unknown"
    option_strategy_type := data.option_strategy_type.getD ""
    contracts := ((data.contracts).orElse (fun _ => data.quantity)).getD 0
    net_premium := data.net_premium.getD 0
    display := data.display.getD ""
    max_loss := data.max_loss
    max_profit := data.max_profit
    pnl := data.pnl
    pnl_pct := data.pnl_pct
    regime := ((data.regime).orElse (fun _ => data.current_regime)).getD "--"
    timestamp := now
    confidence := data.confidence
    exit_reason := data.exit_reason
    commission := data.commission
    strike := data.strike
    expiration_date := data.expiration_date
    option_type := data.option_type
    underlying_entry := data.underlying_entry
    underlying_exit := data.underlying_exit
    entry_delta := data.entry_delta
    entry_iv := data.entry_iv }

structure FeedState where
  alerts : List Alert
  processedRef : Nat
  deriving DecidableEq, Repr

def initFeed : FeedState := { alerts := [], processedRef := 0 }

/-- One delivery to the ingestor: the `lastMessage` value the effect sees
and the `Date.now()` it reads. -/
structure FeedEv where
  msg : Option WSMessage
  now : Nat
  deriving DecidableEq, Repr

/-- The early returns of the effect: a present `trade_update` qualifies. -/
def qualifies (e : FeedEv) : Bool :=
  match e.msg with
  | none => false
  | some m => m.type == .trade_update

/-- Whether the effect reaches the insertion (`processedRef` dedup passed). -/
def didInsert (s : FeedState) (e : FeedEv) : Bool :=
  qualifies e && s.processedRef != e.now

/-- One run of the `AlertsFeed` effect body:
return early unless a `trade_update` is present; skip when
`processedRef.current === now`; otherwise record `now`, prepend the
normalized alert and truncate with `.slice(0, MAX_ALERTS)`. -/
def ingest (s : FeedState) (e : FeedEv) : FeedState :=
  match e.msg with
  | none => s
  | some m =>
      if m.type != .trade_update then s
      else if s.processedRef == e.now then s
      else { processedRef := e.now
             alerts := (mkAlert m.data e.now :: s.alerts).take MAX_ALERTS }

def ingestRun (s : FeedState) (evs : List FeedEv) : FeedState :=
  evs.foldl ingest s

/-- The alert an event would insert. -/
def alertOf (e : FeedEv) : Alert :=
  mkAlert ((e.msg.map WSMessage.data).getD {}) e.now

/-- The ids of the alerts actually inserted along a run, in order. -/
def insertedIds (s : FeedState) : List FeedEv → List Nat
  | [] => []
  | e :: rest =>
      (if didInsert s e then [e.now] else []) ++ insertedIds (ingest s e) rest

/-! ## Poll Loops

Each hook's `refresh` wraps its fetch in `try`/`catch`; the fetch outcome
is embedded as an `Except`.  Payload types are parameters: the hooks never
inspect the fetched values, they only store them. -/

/-- State of `useTrades`: `trades`, `total`, `error`. -/
structure TradesState (τ : Type) where
  trades : List τ
  total : ℚ
  error : Option String
  deriving DecidableEq, Repr

/-- Response shape of `getTrades()`: a `trades` list and a `total` count. -/
structure TradesResponse (τ : Type) where
  trades : List τ
  total : ℚ
  deriving DecidableEq, Repr

/-- Body of `useTrades.refresh` (useTrades.ts lines 10-19): on success store
`data.trades` and `data.total` and clear `error`; on a thrown fetch set
`error` and touch nothing else. -/
def tradesRefresh {τ : Type} (s : TradesState τ)
    (fetched : Except Unit (TradesResponse τ)) : TradesState τ :=
  match fetched with
  | .ok data => { trades := data.trades, total := data.total, error := none }
  | .error _ => { s with error := some "Failed to fetch trade data" }

/-- Snapshot after the first `n` cycles of the trades poll loop, the
cycles' fetch outcomes given as a list. -/
def tradesPoll {τ : Type} (s : TradesState τ)
    (cycles : List (Except Unit (TradesResponse τ))) : TradesState τ :=
  cycles.foldl tradesRefresh s

/-- State of `useAccount`: `account`, `risk`, `error` (src/unnamed/part_011). -/
structure AccountState (α ρ : Type) where
  account : Option α
  risk : Option ρ
  error : Option String
  deriving DecidableEq, Repr

/-- Body of `useAccount.refresh`: `Promise.all([getAccountInfo(), getRiskMetrics()])`
— the pair settles `ok` only when both requests succeed; a rejection of
either rejects the pair, reaching the `catch`. -/
def accountRefresh {α ρ : Type} (s : AccountState α ρ)
    (acct : Except Unit α) (risk : Except Unit ρ) : AccountState α ρ :=
  match acct, risk with
  | .ok a, .ok r => { account := some a, risk := some r, error := none }
  | _, _ => { s with error := some "Failed to fetch account data" }

/-! ## Ranking Blender

`StrategyRanking.composite_score` (types.ts lines 202–228) only declares
the blended score; the computation lives in the backend, outside the
sources at hand. -/

/-- Modelled from the spec: the backend ScoreBlender computation is not in
the available sources (only the `composite_score` field declaration and
the UI legend "★ Score = 55% short-term + 45% long-term" are).  Per the
spec, an LT summary that is absent, null, or flagged "insufficient data"
is treated identically to no LT data. -/
inductive LtSummary
  | absent
  | insufficient
  | scored (score : ℚ)
  deriving DecidableEq, Repr

/-- Modelled from the spec: the usable LT score, if any. -/
def ltScore : LtSummary → Option ℚ
  | .scored s => some s
  | _ => none

/-- Modelled from the spec: blended score = ST score when no usable LT
data, otherwise `0.55 * ST + 0.45 * LT` with exact weights. -/
def blendedScore (st : ℚ) (lt : LtSummary) : ℚ :=
  match ltScore lt with
  | none => st
  | some l => 55 / 100 * st + 45 / 100 * l

/-! ## Leaderboard polling cadence

`useLeaderboard` registers a fixed 30 s `setInterval(refresh)` on mount
(useLeaderboard.ts lines 50–60).  `StrategyLeaderboard` (src/unnamed/
part_004) adds a second effect: while `isLtRunning` it registers a 5 s
`setInterval(refresh)`, cleared as soon as `isLtRunning` turns false. -/

def LEADERBOARD_POLL_MS : Nat := 30000

def LT_POLL_MS : Nat := 5000

/-- Flag `isLtRunning = ltProgress.status === 'running' || ltRunning`. -/
def isLtRunning (ltStatus : String) (ltLocal : Bool) : Bool :=
  ltStatus == "running" || ltLocal

/-- The `refresh` intervals registered in a given UI state: the base 30 s
timer is unconditional; the 5 s timer exists exactly while `isLtRunning`. -/
def refreshIntervals (ltStatus : String) (ltLocal : Bool) : List Nat :=
  [LEADERBOARD_POLL_MS] ++
    (if isLtRunning ltStatus ltLocal then [LT_POLL_MS] else [])

/-- The effective polling period: the shortest registered interval. -/
def effectivePeriod (ltStatus : String) (ltLocal : Bool) : Option Nat :=
  (refreshIntervals ltStatus ltLocal).min?

/-! ## Theorems -/

/-- C2: for every attempt count `n ≥ 0` the reconnect backoff delay equals
`min(3000 * 2^n, 60000)` ms — in particular the sequence 3 s, 6 s, 12 s,
24 s, 48 s, and 60 s for every `n ≥ 5` — and the close handler schedules
exactly that delay and then increments the attempt count by 1. -/
theorem backoff_schedule (n : Nat) :
    backoffDelay n = min (3000 * 2 ^ n) 60000 ∧
    (5 ≤ n → backoffDelay n = 60000) ∧
    backoffDelay 0 = 3000 ∧ backoffDelay 1 = 6000 ∧ backoffDelay 2 = 12000 ∧
    backoffDelay 3 = 24000 ∧ backoffDelay 4 = 48000 ∧
    ∀ s : ChanState, s.attempt = n →
      (chanStep s .evClose).timer = some (backoffDelay n) ∧
      (chanStep s .evClose).attempt = n + 1 := by
  refine ⟨rfl, ?_, by decide, by decide, by decide, by decide, by decide, ?_⟩
  · intro h
    have h32 : (32 : Nat) ≤ 2 ^ n := by
      calc (32 : Nat) = 2 ^ 5 := by norm_num
        _ ≤ 2 ^ n := Nat.pow_le_pow_right (by norm_num) h
    have : (60000 : Nat) ≤ 3000 * 2 ^ n := by
      calc (60000 : Nat) ≤ 3000 * 32 := by norm_num
        _ ≤ 3000 * 2 ^ n := Nat.mul_le_mul_left 3000 h32
    simpa [backoffDelay] using Nat.min_eq_right this
  · intro s hs
    simp [chanStep, hs]

/-- Closed instance of `backoff_schedule`: the cap is reached at attempt 5. -/
theorem backoff_schedule_witness :
    5 ≤ 5 ∧ backoffDelay 5 = 60000 :=
  ⟨Nat.le_refl 5, (backoff_schedule 5).2.1 (Nat.le_refl 5)⟩

/-- C7: the open handler resets the attempt count to 0 (and reports
connected), so a close immediately after a successful open schedules a
3000 ms reconnect delay regardless of the prior attempt count. -/
theorem open_resets_attempt (s : ChanState) :
    (chanStep s .evOpen).attempt = 0 ∧
    (chanStep s .evOpen).connected = true ∧
    (chanStep (chanStep s .evOpen) .evClose).timer = some 3000 := by
  refine ⟨rfl, rfl, ?_⟩
  simp [chanStep, backoffDelay]

/-- C8: an inbound frame that fails to parse (the `JSON.parse` attempt is
an error) produces zero subscriber deliveries and leaves `lastMessage`
unchanged; the handler returns normally (it is a total function — the
parse failure is swallowed by the `catch`, never rethrown). -/
theorem malformed_frame_dropped (last : Option WSMessage) (e : Unit) :
    onmessage (.error e) last = (last, []) := rfl

/-- C3: the blended score equals the ST score when the LT summary is
absent or flagged insufficient, and equals `0.55 * ST + 0.45 * LT` when
both exist; in particular ST 60.0 with LT 20.0 blends to 42.0. -/
theorem blended_score_spec (st lt : ℚ) :
    blendedScore st .absent = st ∧
    blendedScore st .insufficient = st ∧
    blendedScore st (.scored lt) = 55 / 100 * st + 45 / 100 * lt ∧
    blendedScore 60 (.scored 20) = 42 := by
  refine ⟨rfl, rfl, rfl, ?_⟩
  show (55 : ℚ) / 100 * 60 + 45 / 100 * 20 = 42
  norm_num

/-- C9: the rankings loops poll at the 30 s base interval; while a
long-term backtest is observed running the additional 5 s interval is
registered, making the effective (shortest) polling period 5 s, and it
reverts to 30 s as soon as the run is over; an in-progress LT status
("running") always counts as running. -/
theorem lt_poll_cadence (ltStatus : String) (ltLocal : Bool) :
    (isLtRunning ltStatus ltLocal = true →
      effectivePeriod ltStatus ltLocal = some LT_POLL_MS) ∧
    (isLtRunning ltStatus ltLocal = false →
      effectivePeriod ltStatus ltLocal = some LEADERBOARD_POLL_MS) ∧
    isLtRunning "running" ltLocal = true := by
  refine ⟨?_, ?_, by simp [isLtRunning]⟩
  · intro h
    simp [effectivePeriod, refreshIntervals, h, LEADERBOARD_POLL_MS, LT_POLL_MS]
  · intro h
    simp [effectivePeriod, refreshIntervals, h]

/-- Closed instance of `lt_poll_cadence`: period 5 s while running,
30 s when idle. -/
theorem lt_poll_cadence_witness :
    isLtRunning "running" false = true ∧
    effectivePeriod "running" false = some LT_POLL_MS ∧
    isLtRunning "idle" false = false ∧
    effectivePeriod "idle" false = some LEADERBOARD_POLL_MS := by
  refine ⟨by decide, (lt_poll_cadence "running" false).1 (by decide),
    by decide, (lt_poll_cadence "idle" false).2.1 (by decide)⟩

lemma foldl_take_succ {β σ : Type _} (f : σ → β → σ) (s : σ) (l : List β)
    (k : Nat) (hk : k < l.length) :
    (l.take (k + 1)).foldl f s = f ((l.take k).foldl f s) l[k] := by
  rw [List.take_succ, List.foldl_append]
  simp [List.getElem?_eq_getElem hk]

/-- C5: for every poll loop and cycle `k` on which the fetch throws, the
snapshot is unchanged from cycle `k-1` and `lastError` becomes non-null;
on a successful fetch the value is replaced wholesale and the error is
cleared.  Stated over the trades loop run cycle by cycle, and over one
refresh of the account/risk loop. -/
theorem poll_failure_stale {τ α ρ : Type} (s0 : TradesState τ)
    (cycles : List (Except Unit (TradesResponse τ))) (k : Nat)
    (hk : k < cycles.length) :
    (cycles[k] = .error () →
      ((tradesPoll s0 (cycles.take (k + 1))).trades =
          (tradesPoll s0 (cycles.take k)).trades ∧
        (tradesPoll s0 (cycles.take (k + 1))).total =
          (tradesPoll s0 (cycles.take k)).total ∧
        (tradesPoll s0 (cycles.take (k + 1))).error ≠ none)) ∧
    (∀ resp, cycles[k] = .ok resp →
      tradesPoll s0 (cycles.take (k + 1)) =
        { trades := resp.trades, total := resp.total, error := none }) ∧
    (∀ (sa : AccountState α ρ) (ra : Except Unit α) (rr : Except Unit ρ),
      (ra = .error () ∨ rr = .error ()) →
        ((accountRefresh sa ra rr).account = sa.account ∧
          (accountRefresh sa ra rr).risk = sa.risk ∧
          (accountRefresh sa ra rr).error ≠ none)) := by
  have hstep := foldl_take_succ tradesRefresh s0 cycles k hk
  refine ⟨?_, ?_, ?_⟩
  · intro herr
    unfold tradesPoll
    rw [hstep, herr]
    simp [tradesRefresh]
  · intro resp hok
    unfold tradesPoll
    rw [hstep, hok]
    rfl
  · rintro sa ra rr (h | h)
    · subst h; cases rr <;> simp [accountRefresh]
    · subst h; cases ra <;> simp [accountRefresh]

/-- Closed instance of `poll_failure_stale`: one good cycle then one
throwing cycle over `Unit` payloads keeps the fetched data and sets the
error. -/
theorem poll_failure_stale_witness :
    ([Except.ok { trades := [()], total := 7 },
        (Except.error () : Except Unit (TradesResponse Unit))][1] =
      Except.error ()) ∧
    (tradesPoll (τ := Unit) { trades := [], total := 0, error := none }
        ([Except.ok { trades := [()], total := 7 }, Except.error ()].take 2)).trades =
      (tradesPoll (τ := Unit) { trades := [], total := 0, error := none }
        ([Except.ok { trades := [()], total := 7 }, Except.error ()].take 1)).trades := by
  refine ⟨rfl, ?_⟩
  exact ((poll_failure_stale (α := Unit) (ρ := Unit)
    { trades := [], total := 0, error := none }
    [Except.ok { trades := [()], total := 7 }, Except.error ()] 1
    (by decide)).1 rfl).1

/-- C10: the account/risk loop updates the two snapshots as a pair: when
both requests of a cycle succeed, both fields hold that same cycle's
values (and the error clears); when either request fails, neither field
changes. -/
theorem account_pair_atomic {α ρ : Type} (s : AccountState α ρ)
    (ra : Except Unit α) (rr : Except Unit ρ) :
    (∀ a r, ra = .ok a → rr = .ok r →
      accountRefresh s ra rr =
        { account := some a, risk := some r, error := none }) ∧
    ((ra.isOk = false ∨ rr.isOk = false) →
      ((accountRefresh s ra rr).account = s.account ∧
        (accountRefresh s ra rr).risk = s.risk)) := by
  constructor
  · intro a r ha hr
    subst ha; subst hr; rfl
  · rintro (h | h) <;> cases ra <;> cases rr <;>
      simp_all [accountRefresh, Except.isOk, Except.toBool]

/-- Closed instance of `account_pair_atomic`: a failing risk request
leaves both snapshots untouched. -/
theorem account_pair_atomic_witness :
    ((Except.ok 3 : Except Unit Nat).isOk = false ∨
      (Except.error () : Except Unit Nat).isOk = false) ∧
    (accountRefresh { account := some 1, risk := some 2, error := none }
        (Except.ok 3) (Except.error () : Except Unit Nat)).account = some 1 :=
  ⟨Or.inr rfl,
    ((account_pair_atomic { account := some 1, risk := some 2, error := none }
      (Except.ok 3) (Except.error () : Except Unit Nat)).2 (Or.inr rfl)).1⟩

lemma chanRun_append (s : ChanState) (l1 l2 : List ChanEv) :
    chanRun s (l1 ++ l2) = chanRun (chanRun s l1) l2 := by
  simp [chanRun, List.foldl_append]

lemma chanValid_append (l1 l2 : List ChanEv) : ∀ s : ChanState,
    chanValid s (l1 ++ l2) = (chanValid s l1 && chanValid (chanRun s l1) l2) := by
  induction l1 with
  | nil => intro s; simp [chanValid, chanRun]
  | cons e rest ih =>
      intro s
      simp only [List.cons_append, chanValid, List.append_eq]
      rw [ih (chanStep s e), Bool.and_assoc]
      simp [chanRun]

/-- A pending reconnect timer only ever exists while the socket is closed:
the timer is scheduled by the close handler and consumed by firing. -/
def TimerInv (s : ChanState) : Prop :=
  s.timer.isSome = true → s.sock = .closed

lemma timerInv_step {s : ChanState} {e : ChanEv} (h : TimerInv s)
    (he : chanEnabled s e = true) : TimerInv (chanStep s e) := by
  cases e
  · intro ht
    exfalso
    have hs : s.sock = SockState.closed := h (by simpa [chanStep] using ht)
    simp [chanEnabled, hs] at he
  · intro _; simp [chanStep]
  · intro ht; simp [chanStep] at ht
  · intro ht; simp [chanStep] at ht

lemma timerInv_run (l : List ChanEv) : ∀ s : ChanState, TimerInv s →
    chanValid s l = true → TimerInv (chanRun s l) := by
  induction l with
  | nil => intro s h _; simpa [chanRun] using h
  | cons e rest ih =>
      intro s h hv
      rw [chanValid, Bool.and_eq_true] at hv
      simpa [chanRun] using ih (chanStep s e) (timerInv_step h hv.1) hv.2

/-- With the socket closed, no timer pending and the channel disposed,
no event is enabled: a valid continuation is empty. -/
lemma chanValid_stuck {s : ChanState} {evs : List ChanEv}
    (h1 : s.sock = .closed) (h2 : s.timer = none) (h3 : s.disposed = true)
    (hv : chanValid s evs = true) : evs = [] := by
  cases evs with
  | nil => rfl
  | cons e rest =>
      exfalso
      cases e <;> simp [chanValid, chanEnabled, h1, h2, h3] at hv

/-- C4: in every valid run in which a reconnect timer is pending and the
channel is then disposed before it fires, no further `connect()` ever
happens: the cleanup cancels the pending timer and the run can make no
post-disposal connection attempt. -/
theorem dispose_cancels_reconnect (pre post : List ChanEv)
    (hv : chanValid initChan (pre ++ ChanEv.dispose :: post) = true)
    (ht : (chanRun initChan pre).timer.isSome = true) :
    (chanRun initChan (pre ++ ChanEv.dispose :: post)).connects =
      (chanRun initChan pre).connects := by
  rw [chanValid_append pre (ChanEv.dispose :: post) initChan,
    Bool.and_eq_true] at hv
  obtain ⟨hvpre, hvpost⟩ := hv
  rw [chanValid, Bool.and_eq_true] at hvpost
  have hinv : TimerInv (chanRun initChan pre) :=
    timerInv_run pre initChan (by intro h; simp [initChan] at h) hvpre
  have hclosed : (chanRun initChan pre).sock = .closed := hinv ht
  have hpost : post = [] := by
    refine chanValid_stuck (s := chanStep (chanRun initChan pre) .dispose)
      ?_ ?_ ?_ hvpost.2
    · simpa [chanStep] using hclosed
    · simp [chanStep]
    · simp [chanStep]
  subst hpost
  rw [chanRun_append]
  simp [chanRun, chanStep]

/-- Closed instance of `dispose_cancels_reconnect`: connect, close (timer
scheduled), dispose — the connect count stays at the initial 1. -/
theorem dispose_cancels_reconnect_witness :
    (chanValid initChan ([ChanEv.evClose] ++ ChanEv.dispose :: []) = true ∧
      (chanRun initChan [ChanEv.evClose]).timer.isSome = true) ∧
    (chanRun initChan ([ChanEv.evClose] ++ ChanEv.dispose :: [])).connects =
      (chanRun initChan [ChanEv.evClose]).connects :=
  ⟨⟨by decide, by decide⟩,
    dispose_cancels_reconnect [ChanEv.evClose] [] (by decide) (by decide)⟩

lemma take_append_take {γ : Type _} (l m : List γ) (n : Nat) :
    (l ++ m.take n).take n = (l ++ m).take n := by
  rw [List.take_append_eq_append_take, List.take_append_eq_append_take,
    List.take_take, Nat.min_eq_left (Nat.sub_le n l.length)]

lemma ingest_insert {s : FeedState} {e : FeedEv} {m : WSMessage}
    (hm : e.msg = some m) (htype : m.type = .trade_update)
    (hne : s.processedRef ≠ e.now) :
    ingest s e =
      { processedRef := e.now
        alerts := (mkAlert m.data e.now :: s.alerts).take MAX_ALERTS } := by
  simp [ingest, hm, htype, hne]

lemma qualifies_some {e : FeedEv} (hq : qualifies e = true) :
    ∃ m, e.msg = some m ∧ m.type = .trade_update := by
  cases hmsg : e.msg with
  | none => rw [qualifies, hmsg] at hq; cases hq
  | some m =>
      refine ⟨m, rfl, ?_⟩
      rw [qualifies, hmsg] at hq
      exact beq_iff_eq.mp hq

lemma ingestRun_fresh (evs : List FeedEv) : ∀ s : FeedState,
    evs.Pairwise (fun a b => a.now < b.now) →
    (∀ e ∈ evs, qualifies e = true) →
    (∀ e ∈ evs, s.processedRef < e.now) →
    s.alerts.length ≤ MAX_ALERTS →
    (ingestRun s evs).alerts =
      ((evs.map alertOf).reverse ++ s.alerts).take MAX_ALERTS := by
  induction evs with
  | nil =>
      intro s _ _ _ hlen
      simp [ingestRun, List.take_of_length_le hlen]
  | cons e rest ih =>
      intro s hpw hq hfresh hlen
      obtain ⟨m, hm, htype⟩ := qualifies_some (hq e (by simp))
      obtain ⟨hhead, htail⟩ := List.pairwise_cons.mp hpw
      have hne : s.processedRef ≠ e.now :=
        Nat.ne_of_lt (hfresh e (by simp))
      have hstep := ingest_insert hm htype hne
      have halert : alertOf e = mkAlert m.data e.now := by
        simp [alertOf, hm]
      have hrun : ingestRun s (e :: rest) = ingestRun (ingest s e) rest := by
        simp [ingestRun]
      rw [hrun, ih (ingest s e) htail (fun b hb => hq b (by simp [hb]))
        (fun b hb => by rw [hstep]; exact hhead b hb)
        (by rw [hstep]; simp [Nat.min_le_left])]
      rw [hstep]
      rw [take_append_take]
      simp [List.append_assoc, halert]

lemma ingest_length_le {s : FeedState} (e : FeedEv)
    (h : s.alerts.length ≤ MAX_ALERTS) :
    (ingest s e).alerts.length ≤ MAX_ALERTS := by
  cases hmsg : e.msg with
  | none => simpa [ingest, hmsg] using h
  | some m =>
      by_cases htype : m.type = MsgType.trade_update
      · by_cases hseen : s.processedRef = e.now
        · simpa [ingest, hmsg, hseen] using h
        · rw [ingest_insert hmsg htype hseen]
          simp [Nat.min_le_left]
      · simpa [ingest, hmsg, htype] using h

lemma ingestRun_length_le (evs : List FeedEv) : ∀ s : FeedState,
    s.alerts.length ≤ MAX_ALERTS →
    (ingestRun s evs).alerts.length ≤ MAX_ALERTS := by
  induction evs with
  | nil => intro s h; simpa [ingestRun] using h
  | cons e rest ih =>
      intro s h
      have : ingestRun s (e :: rest) = ingestRun (ingest s e) rest := by
        simp [ingestRun]
      rw [this]
      exact ih (ingest s e) (ingest_length_le e h)

/-- C1: the retained alert list never exceeds 50 records on any input
sequence; and after any 60 sequential qualifying `trade_update` deliveries
(at strictly increasing positive arrival instants) it is exactly the
reversal of the inserted records truncated to `MAX_ALERTS`: length exactly
50, the 50 most recently inserted records, ordered most-recent-first (the
10 oldest evicted). -/
theorem alert_history_bounded (evs : List FeedEv)
    (hmono : evs.Pairwise (fun a b => a.now < b.now))
    (hq : ∀ e ∈ evs, qualifies e = true)
    (hpos : ∀ e ∈ evs, 0 < e.now)
    (hlen : evs.length = 60) :
    (∀ l : List FeedEv, (ingestRun initFeed l).alerts.length ≤ MAX_ALERTS) ∧
    (ingestRun initFeed evs).alerts =
      (evs.map alertOf).reverse.take MAX_ALERTS ∧
    (ingestRun initFeed evs).alerts.length = 50 := by
  have h := ingestRun_fresh evs initFeed hmono hq
    (fun e he => hpos e he) (by simp [initFeed, MAX_ALERTS])
  have h' : (ingestRun initFeed evs).alerts =
      (evs.map alertOf).reverse.take MAX_ALERTS := by
    simpa [initFeed] using h
  refine ⟨fun l => ingestRun_length_le l initFeed (by simp [initFeed]), h', ?_⟩
  rw [h', List.length_take]
  simp [hlen, MAX_ALERTS]

def demoMsg : WSMessage := { type := .trade_update, data := {} }

def demoEvs : List FeedEv :=
  (List.range 60).map fun i => { msg := some demoMsg, now := i + 1 }

/-- Closed instance of `alert_history_bounded`: 60 qualifying messages at
instants 1..60 leave exactly 50 retained alerts. -/
theorem alert_history_bounded_witness :
    (demoEvs.Pairwise (fun a b => a.now < b.now) ∧
      (∀ e ∈ demoEvs, qualifies e = true) ∧
      (∀ e ∈ demoEvs, 0 < e.now) ∧ demoEvs.length = 60) ∧
    (ingestRun initFeed demoEvs).alerts.length = 50 :=
  ⟨⟨by decide, by decide, by decide, by decide⟩,
    (alert_history_bounded demoEvs (by decide) (by decide) (by decide)
      (by decide)).2.2⟩

lemma ingest_skip_of_not_qualifies {s : FeedState} {e : FeedEv}
    (hq : qualifies e = false) : ingest s e = s := by
  cases hmsg : e.msg with
  | none => simp [ingest, hmsg]
  | some m =>
      simp only [qualifies, hmsg] at hq
      have : m.type ≠ MsgType.trade_update := by
        intro h
        rw [h] at hq
        simp at hq
      simp [ingest, hmsg, this]

lemma ingest_skip_of_seen {s : FeedState} {e : FeedEv}
    (hs : s.processedRef = e.now) : ingest s e = s := by
  cases hmsg : e.msg with
  | none => simp [ingest, hmsg]
  | some m => simp [ingest, hmsg, hs]

lemma didInsert_false_of_not_qualifies {s : FeedState} {e : FeedEv}
    (hq : qualifies e = false) : didInsert s e = false := by
  simp [didInsert, hq]

lemma didInsert_false_of_seen {s : FeedState} {e : FeedEv}
    (hs : s.processedRef = e.now) : didInsert s e = false := by
  simp [didInsert, hs]

lemma insertedIds_cons_true {s : FeedState} {e : FeedEv} {rest : List FeedEv}
    (h : didInsert s e = true) :
    insertedIds s (e :: rest) = e.now :: insertedIds (ingest s e) rest := by
  simp [insertedIds, h]

lemma insertedIds_cons_false {s : FeedState} {e : FeedEv} {rest : List FeedEv}
    (h : didInsert s e = false) :
    insertedIds s (e :: rest) = insertedIds (ingest s e) rest := by
  simp [insertedIds, h]

lemma insertedIds_count (t : Nat) (evs : List FeedEv) : ∀ s : FeedState,
    evs.Pairwise (fun a b => a.now ≤ b.now) →
    (∀ e ∈ evs, s.processedRef ≤ e.now) →
    (insertedIds s evs).count t =
      if (∃ e ∈ evs, qualifies e = true ∧ e.now = t) ∧ s.processedRef ≠ t
      then 1 else 0 := by
  induction evs with
  | nil => intro s _ _; simp [insertedIds]
  | cons e rest ih =>
      intro s hpw hle
      obtain ⟨hhead, htail⟩ := List.pairwise_cons.mp hpw
      by_cases hq : qualifies e = true
      · by_cases hskip : s.processedRef = e.now
        · -- dedup: processedRef === now, so the message is discarded
          rw [insertedIds_cons_false (didInsert_false_of_seen hskip),
            ingest_skip_of_seen hskip, ih s htail
              (fun b hb => by rw [hskip]; exact hhead b hb)]
          by_cases hst : s.processedRef = t
          · simp [hst]
          · have het : e.now ≠ t := fun h => hst (hskip.trans h)
            have hiff : (∃ b ∈ e :: rest, qualifies b = true ∧ b.now = t) ↔
                (∃ b ∈ rest, qualifies b = true ∧ b.now = t) := by
              constructor
              · rintro ⟨b, hb, hbq, hbt⟩
                rcases List.mem_cons.mp hb with hbe | hbr
                · exact absurd (hbe ▸ hbt) het
                · exact ⟨b, hbr, hbq, hbt⟩
              · rintro ⟨b, hb, hbq, hbt⟩
                exact ⟨b, List.mem_cons_of_mem e hb, hbq, hbt⟩
            simp only [hiff]
        · -- fresh instant: the alert is inserted, processedRef updated
          obtain ⟨m, hm, htype⟩ := qualifies_some hq
          have hdid : didInsert s e = true := by
            simp [didInsert, hq, hskip]
          have href : (ingest s e).processedRef = e.now := by
            rw [ingest_insert hm htype hskip]
          rw [insertedIds_cons_true hdid, List.count_cons,
            ih (ingest s e) htail (fun b hb => by rw [href]; exact hhead b hb),
            href]
          by_cases het : e.now = t
          · have hst : s.processedRef ≠ t := by rw [← het]; exact hskip
            have hexfull : ∃ b ∈ e :: rest, qualifies b = true ∧ b.now = t :=
              ⟨e, by simp, hq, het⟩
            simp [het, hst, hexfull, hq]
          · by_cases hst : s.processedRef = t
            · -- every later instant exceeds t: no further t-insert
              have hnone : ¬ ∃ b ∈ rest, qualifies b = true ∧ b.now = t := by
                rintro ⟨b, hb, -, hbt⟩
                have h1 : s.processedRef ≤ e.now := hle e (by simp)
                have h2 : e.now ≤ b.now := hhead b hb
                exact het (Nat.le_antisymm (hbt ▸ h2) (hst ▸ h1))
              simp [het, hst, hnone]
            · have hiff : (∃ b ∈ e :: rest, qualifies b = true ∧ b.now = t) ↔
                  (∃ b ∈ rest, qualifies b = true ∧ b.now = t) := by
                constructor
                · rintro ⟨b, hb, hbq, hbt⟩
                  rcases List.mem_cons.mp hb with hbe | hbr
                  · exact absurd (hbe ▸ hbt) het
                  · exact ⟨b, hbr, hbq, hbt⟩
                · rintro ⟨b, hb, hbq, hbt⟩
                  exact ⟨b, List.mem_cons_of_mem e hb, hbq, hbt⟩
              simp [het, hst, hiff]
      · -- non-qualifying message: no state change, nothing inserted
        have hq' : qualifies e = false := by
          cases h : qualifies e
          · rfl
          · exact absurd h hq
        rw [insertedIds_cons_false (didInsert_false_of_not_qualifies hq'),
          ingest_skip_of_not_qualifies hq', ih s htail
            (fun b hb => hle b (List.mem_cons_of_mem e hb))]
        have hiff : (∃ b ∈ e :: rest, qualifies b = true ∧ b.now = t) ↔
            (∃ b ∈ rest, qualifies b = true ∧ b.now = t) := by
          constructor
          · rintro ⟨b, hb, hbq, hbt⟩
            rcases List.mem_cons.mp hb with hbe | hbr
            · rw [hbe] at hbq
              rw [hq'] at hbq
              cases hbq
            · exact ⟨b, hbr, hbq, hbt⟩
          · rintro ⟨b, hb, hbq, hbt⟩
            exact ⟨b, List.mem_cons_of_mem e hb, hbq, hbt⟩
        simp only [hiff]

/-- C6: with a monotone (non-decreasing) wall clock, every set of
qualifying messages sharing one derived identity (the same arrival
millisecond `t > 0`) produces exactly one inserted alert record: ingestion
is idempotent on the derived identity, so two distinct events in the same
millisecond collapse into one record. -/
theorem alert_dedup (evs : List FeedEv) (t : Nat)
    (hmono : evs.Pairwise (fun a b => a.now ≤ b.now))
    (ht : 0 < t)
    (hex : ∃ e ∈ evs, qualifies e = true ∧ e.now = t) :
    (insertedIds initFeed evs).count t = 1 := by
  rw [insertedIds_count t evs initFeed hmono (fun e _ => Nat.zero_le _)]
  have : initFeed.processedRef ≠ t := by
    simp [initFeed]
    omega
  simp [hex, this]

/-- Closed instance of `alert_dedup`: two qualifying messages in the same
millisecond yield one inserted record. -/
theorem alert_dedup_witness :
    (([⟨some demoMsg, 5⟩, ⟨some demoMsg, 5⟩] :
        List FeedEv).Pairwise (fun a b => a.now ≤ b.now) ∧ 0 < 5 ∧
      (∃ e ∈ ([⟨some demoMsg, 5⟩, ⟨some demoMsg, 5⟩] : List FeedEv),
        qualifies e = true ∧ e.now = 5)) ∧
    (insertedIds initFeed
      ([⟨some demoMsg, 5⟩, ⟨some demoMsg, 5⟩] : List FeedEv)).count 5 = 1 :=
  ⟨⟨by decide, by decide, by decide⟩,
    alert_dedup [⟨some demoMsg, 5⟩, ⟨some demoMsg, 5⟩] 5
      (by decide) (by decide) (by decide)⟩

end SpyDaytrader
